import Mathlib

/-!
Verification of the fermat calculator core (src/evaluator.rs): a shallow
embedding of the tokenizer and the token evaluator, with theorems checking
the natural-language specification against the code.

Modelling conventions:
* `Decimal` models `rust_decimal::Decimal` as an unnormalised pair of an
  integer mantissa and a base-10 scale; its value is `m / 10^s`.  Exact
  addition, subtraction and multiplication are modelled exactly on aligned
  mantissas.  `checkedMul` models the 96-bit mantissa limit: it returns the
  exact product when it is representable (after removing trailing zero
  digits to bring the scale within 28) and `none` otherwise; the library's
  rounding of excess fractional precision is not modelled — no claim
  exercises it.  Comparison (`==`, `<`) is by value, as for the library type.
* Rust `Vec` push/pop at the end is modelled by a Lean list with its head as
  the stack top.
* The floating-point fallback paths (`sqrt`, non-integer exponent) are kept
  as explicit error stubs: they are binary floating point and outside every
  claim; every claim about `^` assumes a zero fractional part of the
  exponent, which takes the exact integer path.
* The out-of-bounds indexing `tokens[i + 7] .. tokens[i + 12]` that the
  special-case scan of `evaluate` performs is modelled faithfully: the
  result type `EvalResult` has a distinguished `panicked` outcome produced
  exactly when the Rust code would panic on an out-of-range index.
* Recursions are written with structural fuel so that every definition
  evaluates inside the kernel; each fuel argument is initialised so that it
  can never run out (the fuel-zero arms are unreachable).
-/

namespace Fermat

/-! ### The decimal number model -/

/-- Model of `rust_decimal::Decimal`: mantissa `m` and base-10 scale `s`;
the represented value is `m / 10^s`. -/
structure Decimal where
  m : Int
  s : Nat
deriving DecidableEq, Repr

/-- `10^s` as a structurally recursive function (kernel-reducible). -/
def pow10 : Nat → Nat
  | 0 => 1
  | s + 1 => 10 * pow10 s

/-- The rational value represented by a `Decimal`. -/
def Decimal.val (d : Decimal) : Rat := (d.m : Rat) / ((pow10 d.s : Nat) : Rat)

/-- `2^96`, the exclusive bound on the magnitude of a `rust_decimal` mantissa. -/
def mantissaBound : Nat := 79228162514264337593543950336

/-- `2^127`, the exclusive bound of `i128` magnitudes (up to the asymmetric
minimum, which no claim exercises). -/
def i128Bound : Nat := 170141183460469231731687303715884105728

/-- Value equality of decimals (`==` / `PartialEq` on `rust_decimal`). -/
def dBEq (a b : Decimal) : Bool := a.m * (pow10 b.s : Int) == b.m * (pow10 a.s : Int)

/-- `Decimal::is_zero` — the value is zero iff the mantissa is zero. -/
def isZeroD (d : Decimal) : Bool := d.m == 0

/-- `d < Decimal::ZERO` — the value is negative iff the mantissa is. -/
def isNegD (d : Decimal) : Bool := decide (d.m < 0)

/-- Unary negation of a decimal. -/
def negD (d : Decimal) : Decimal := ⟨-d.m, d.s⟩

/-- `Decimal::abs`. -/
def absD (d : Decimal) : Decimal := ⟨if d.m < 0 then -d.m else d.m, d.s⟩

/-- Exact decimal addition: align the scales, add the mantissas. -/
def addD (a b : Decimal) : Decimal :=
  let t := max a.s b.s
  ⟨a.m * (pow10 (t - a.s) : Int) + b.m * (pow10 (t - b.s) : Int), t⟩

/-- Exact decimal subtraction: align the scales, subtract the mantissas. -/
def subD (a b : Decimal) : Decimal :=
  let t := max a.s b.s
  ⟨a.m * (pow10 (t - a.s) : Int) - b.m * (pow10 (t - b.s) : Int), t⟩

/-- Exact decimal multiplication (`*`); the library's overflow handling is
not modelled, no claim leaves the exact range. -/
def mulD (a b : Decimal) : Decimal := ⟨a.m * b.m, a.s + b.s⟩

/-- Truncating (toward-zero) integer quotient, as Rust `/` on integers. -/
def tQuot (x y : Int) : Int :=
  (if (0 ≤ x) = (0 ≤ y) then 1 else -1) * ((x.natAbs / y.natAbs : Nat) : Int)

/-- Truncating remainder (sign of the dividend), as Rust `%` on integers. -/
def tRem (x y : Int) : Int := x - y * tQuot x y

/-- The integer part of a decimal, truncated toward zero. -/
def truncD (d : Decimal) : Int := tQuot d.m (pow10 d.s : Int)

/-- `Decimal::to_i128`: the truncated integer part when it fits into `i128`. -/
def toI128 (d : Decimal) : Option Int :=
  let t := truncD d
  if t.natAbs < i128Bound then some t else none

/-- `d.fract().is_zero()`: the fractional part vanishes iff `10^s` divides
the mantissa. -/
def fractZeroD (d : Decimal) : Bool := d.m % (pow10 d.s : Int) == 0

/-- Scale reduction used by `checkedMul`: while the scale is above 28 or the
mantissa is out of range, remove trailing zero digits (exact steps only). -/
def reduceScale : Int → Nat → Int × Nat
  | m, 0 => (m, 0)
  | m, s + 1 =>
    if (28 < s + 1 ∨ mantissaBound ≤ m.natAbs) ∧ m % 10 = 0 then
      reduceScale (m / 10) s
    else (m, s + 1)

/-- Model of `Decimal::checked_mul`: the exact product when representable
with a mantissa below `2^96` and scale at most 28, `none` otherwise. -/
def checkedMul (a b : Decimal) : Option Decimal :=
  if (reduceScale (a.m * b.m) (a.s + b.s)).2 ≤ 28 ∧
     (reduceScale (a.m * b.m) (a.s + b.s)).1.natAbs < mantissaBound then
    some ⟨(reduceScale (a.m * b.m) (a.s + b.s)).1,
          (reduceScale (a.m * b.m) (a.s + b.s)).2⟩
  else none

/-- Model of decimal division: the exact quotient at the least sufficient
scale when one exists up to 28, otherwise the quotient truncated at
scale 28.  (Callers guard against a zero divisor; the zero-divisor arm is
junk and unreachable.) -/
def divD (a b : Decimal) : Decimal :=
  if b.m = 0 then ⟨0, 0⟩
  else
    let num := a.m * (pow10 b.s : Int)
    let den := b.m * (pow10 a.s : Int)
    match (List.range 29).find? (fun s => num * (pow10 s : Int) % den == 0) with
    | some s => ⟨tQuot (num * (pow10 s : Int)) den, s⟩
    | none => ⟨tQuot (num * (pow10 28 : Int)) den, 28⟩

/-- Model of decimal remainder (`%`): truncating remainder on the aligned
mantissas, carrying the sign of the dividend. -/
def remD (a b : Decimal) : Decimal :=
  let t := max a.s b.s
  ⟨tRem (a.m * (pow10 (t - a.s) : Int)) (b.m * (pow10 (t - b.s) : Int)), t⟩

/-- `Decimal`'s `Display`: the mantissa digits with the decimal point placed
by the scale (`2.50`, `0.5`, `100`). -/
def decRepr (d : Decimal) : List Char :=
  let M := d.m.natAbs
  if d.s = 0 then Nat.toDigits 10 M
  else
    let fr := Nat.toDigits 10 (M % pow10 d.s)
    Nat.toDigits 10 (M / pow10 d.s) ++ '.' :: (List.replicate (d.s - fr.length) '0' ++ fr)

/-- `str::trim_end_matches('0')`. -/
def trimZeros (l : List Char) : List Char :=
  (l.reverse.dropWhile (fun c => c == '0')).reverse

/-- `a.abs().to_string().trim_end_matches('0').len()` — the digit-count
heuristic used by the exponentiation overflow pre-check. -/
def base_digits (a : Decimal) : Nat := (trimZeros (decRepr (absD a))).length

/-- `fn factorial(n: &Decimal)`: error for a negative value, error when the
truncated integer part exceeds 20, otherwise the exact product `1..=n`. -/
def factorial (n : Decimal) : Except String Decimal :=
  if isNegD n = true then .error "Cannot compute factorial of negative number"
  else
    match toI128 n with
    | none => .error "Number too large for factorial"
    | some k =>
      if 20 < k then .error "Factorial result too large"
      else .ok ((List.range k.toNat).foldl (fun r i => mulD r ⟨(i : Int) + 1, 0⟩) ⟨1, 0⟩)

/-! ### Tokens and the character-level parsers -/

/-- The token type of the evaluator module. -/
inductive Token where
  | Number (d : Decimal)
  | Plus
  | Minus
  | Multiply
  | Divide
  | Modulo
  | Sqrt
  | Abs
  | Factorial
  | LeftParen
  | RightParen
  | Exponentiation
deriving DecidableEq, Repr

/-- `nom::character::complete::space0` matches spaces and tabs. -/
def isSpace0 (c : Char) : Bool := c == ' ' || c == '\t'

/-- Whitespace in the sense of `str::trim`. -/
def isTrimWs (c : Char) : Bool := c == ' ' || c == '\t' || c == '\n' || c == '\r'

/-- `parse_keyword`: the tags `sqrt` and `abs`, in this order. -/
def parse_keyword (input : List Char) : Option (Token × List Char) :=
  if input.take 4 = "sqrt".toList then some (.Sqrt, input.drop 4)
  else if input.take 3 = "abs".toList then some (.Abs, input.drop 3)
  else none

/-- Digit run to a natural number. -/
def digitsToNat (ds : List Char) : Nat :=
  ds.foldl (fun acc c => 10 * acc + (c.toNat - '0'.toNat)) 0

/-- The `Number` token built by `Decimal::from_str` on a recognised literal:
mantissa from the concatenated digits with the optional sign, scale the
number of fractional digits. -/
def mkNumTok (sign : Bool) (ds fs : List Char) : Token :=
  .Number ⟨(if sign = true then -1 else 1) * (digitsToNat (ds ++ fs) : Int), fs.length⟩

/-- The part of `parse_number` after the optional sign:
`digit1 ~ opt('.' ~ digit1)` (the `opt` group backtracks when no digit
follows the point). -/
def parse_number_core (sign : Bool) (rest1 : List Char) : Option (Token × List Char) :=
  if (rest1.takeWhile Char.isDigit).length = 0 then none
  else
    if (rest1.drop (rest1.takeWhile Char.isDigit).length).head? = some '.' then
      if ((rest1.drop (rest1.takeWhile Char.isDigit).length).tail.takeWhile
            Char.isDigit).length = 0 then
        some (mkNumTok sign (rest1.takeWhile Char.isDigit) [],
              rest1.drop (rest1.takeWhile Char.isDigit).length)
      else
        some (mkNumTok sign (rest1.takeWhile Char.isDigit)
                ((rest1.drop (rest1.takeWhile Char.isDigit).length).tail.takeWhile
                  Char.isDigit),
              (rest1.drop (rest1.takeWhile Char.isDigit).length).tail.drop
                ((rest1.drop (rest1.takeWhile Char.isDigit).length).tail.takeWhile
                  Char.isDigit).length)
    else
      some (mkNumTok sign (rest1.takeWhile Char.isDigit) [],
            rest1.drop (rest1.takeWhile Char.isDigit).length)

/-- `parse_number`: `recognize(opt('-') ~ digit1 ~ opt('.' ~ digit1))`
followed by `Decimal::from_str`. -/
def parse_number (input : List Char) : Option (Token × List Char) :=
  if input.head? = some '-' then parse_number_core true input.tail
  else parse_number_core false input

/-- `parse_operator`: the nine single-character tokens, in the source's
`alt` order. -/
def parse_operator (input : List Char) : Option (Token × List Char) :=
  match input with
  | [] => none
  | c :: rest =>
    if c = '+' then some (.Plus, rest)
    else if c = '-' then some (.Minus, rest)
    else if c = '*' then some (.Multiply, rest)
    else if c = '/' then some (.Divide, rest)
    else if c = '%' then some (.Modulo, rest)
    else if c = '!' then some (.Factorial, rest)
    else if c = '^' then some (.Exponentiation, rest)
    else if c = '(' then some (.LeftParen, rest)
    else if c = ')' then some (.RightParen, rest)
    else none

/-- `parse_token`: `delimited(space0, alt((keyword, number, operator)), space0)`. -/
def parse_token (input : List Char) : Option (Token × List Char) :=
  match
    (match parse_keyword (input.dropWhile isSpace0) with
     | some tr => some tr
     | none =>
       match parse_number (input.dropWhile isSpace0) with
       | some tr => some tr
       | none => parse_operator (input.dropWhile isSpace0)) with
  | none => none
  | some (t, rest) => some (t, rest.dropWhile isSpace0)

/-- `many0(parse_token)`: repeat until the parser fails.  The fuel is
initialised to more than the input length; since a successful `parse_token`
always consumes at least one character, the fuel never runs out. -/
def many_tokens : Nat → List Char → List Token × List Char
  | 0, input => ([], input)
  | fuel + 1, input =>
    match parse_token input with
    | none => ([], input)
    | some (t, rest) =>
      let p := many_tokens fuel rest
      (t :: p.1, p.2)

/-! ### The tokenizer post-processing pass -/

/-- The context in which a `Minus` is unary: no token emitted yet, or the
last emitted token is an operator or an opening parenthesis. -/
def isUnaryCtx (acc : List Token) : Bool :=
  match acc.getLast? with
  | none => true
  | some t =>
    match t with
    | .Plus | .Minus | .Multiply | .Divide | .Modulo | .Exponentiation | .LeftParen => true
    | _ => false

/-- The post-processing pass of `tokenize`, accumulating the emitted tokens
in `acc` (list end = most recently emitted, as the Rust `Vec`). -/
def postprocessGo (acc : List Token) : List Token → Except String (List Token)
  | [] => .ok acc
  | .Minus :: rest =>
    if isUnaryCtx acc = true then
      match rest with
      | .Number n :: r => postprocessGo (acc ++ [.Number (negD n)]) r
      | .LeftParen :: r =>
        postprocessGo (acc ++ [.LeftParen, .Number ⟨-1, 0⟩, .Multiply]) r
      | _ => .error "Invalid unary minus"
    else
      match rest with
      | .Number _ :: _ => postprocessGo (acc ++ [.Minus]) rest
      | _ => postprocessGo (acc ++ [.Plus, .Number ⟨-1, 0⟩, .Multiply]) rest
  | .Sqrt :: rest => postprocessGo (acc ++ [.Sqrt]) rest
  | .Abs :: rest => postprocessGo (acc ++ [.Abs]) rest
  | .Factorial :: rest =>
    match acc.getLast? with
    | some (.Number n) =>
      match factorial n with
      | .ok f => postprocessGo (acc.dropLast ++ [.Number f]) rest
      | .error e => .error e
    | some .RightParen => postprocessGo (acc ++ [.Factorial]) rest
    | _ => .error "Invalid factorial operation"
  | t :: rest => postprocessGo (acc ++ [t]) rest

/-- `pub fn tokenize`: run `many0(parse_token)`, reject a non-whitespace
remainder, then post-process unary minus and factorial. -/
def tokenize (s : String) : Except String (List Token) :=
  let input := s.toList
  let p := many_tokens (input.length + 1) input
  if (p.2.all isTrimWs) = true then postprocessGo [] p.1
  else .error "Unable to parse remaining input"

/-! ### The evaluator -/

/-- `fn precedence(token: &Token)`. -/
def precedence (t : Token) : Nat :=
  match t with
  | .Plus | .Minus => 1
  | .Multiply | .Divide | .Modulo => 2
  | .Exponentiation => 3
  | .Factorial => 4
  | .Sqrt | .Abs => 5
  | _ => 0

/-- The exponentiation-by-squaring loop of `apply_operator`'s integer-power
branch, with its two overflow rejections.  Fuel-structural; `powLoop`
initialises the fuel to the exponent, which bounds the iteration count. -/
def powLoopAux : Nat → Decimal → Decimal → Nat → Except String Decimal
  | 0, result, _, _ => .ok result
  | fuel + 1, result, base, expAbs =>
    if expAbs = 0 then .ok result
    else
      match (if expAbs % 2 = 1 then
               match checkedMul result base with
               | some r => Except.ok r
               | none => Except.error "Result too large"
             else Except.ok result) with
      | .error e => .error e
      | .ok r2 =>
        if 1 < expAbs then
          match checkedMul base base with
          | some b2 => powLoopAux fuel r2 b2 (expAbs / 2)
          | none => .error "Intermediate result too large"
        else powLoopAux fuel r2 base (expAbs / 2)

/-- `while exp_abs > 0 { .. }` of the integer exponentiation. -/
def powLoop (result base : Decimal) (expAbs : Nat) : Except String Decimal :=
  powLoopAux expAbs result base expAbs

/-- Push a power-loop outcome back onto the operand stack, propagating its
error. -/
def liftPow (r : Except String Decimal) (rest : List Decimal) :
    Except String (List Decimal) :=
  match r with
  | .ok v => .ok (v :: rest)
  | .error e => .error e

/-- `fn apply_operator(numbers: &mut Vec<Decimal>, op: Token)`, with the
stack top at the list head. -/
def apply_operator (numbers : List Decimal) (op : Token) :
    Except String (List Decimal) :=
  match op with
  | .Plus =>
    match numbers with
    | b :: a :: rest => .ok (addD a b :: rest)
    | _ => .error "Not enough operands for addition"
  | .Minus =>
    match numbers with
    | b :: a :: rest => .ok (subD a b :: rest)
    | _ => .error "Not enough operands for subtraction"
  | .Multiply =>
    match numbers with
    | b :: a :: rest => .ok (mulD a b :: rest)
    | _ => .error "Not enough operands for multiplication"
  | .Divide =>
    match numbers with
    | b :: a :: rest =>
      if isZeroD b = true then .error "division by zero"
      else .ok (divD a b :: rest)
    | _ => .error "Not enough operands for division"
  | .Modulo =>
    match numbers with
    | b :: a :: rest =>
      if isZeroD b = true then .error "modulo by zero"
      else .ok (remD a b :: rest)
    | _ => .error "Not enough operands for modulo"
  | .Exponentiation =>
    match numbers with
    | b :: a :: rest =>
      if fractZeroD b = true then
        match toI128 b with
        | none => .error "Exponent too large"
        | some exp =>
          if 0 < exp ∧ 28 < (base_digits a : Int) * exp then
            .error "Result would be too large"
          else
            if exp < 0 ∧ isZeroD a = true then
              .error "Division by zero in negative exponent"
            else
              liftPow (powLoop ⟨1, 0⟩ (if exp < 0 then divD ⟨1, 0⟩ a else a) exp.natAbs) rest
      else .error "unmodelled: floating-point exponentiation"
    | _ => .error "Not enough operands for exponentiation"
  | .Factorial =>
    match numbers with
    | n :: rest =>
      match factorial n with
      | .ok f => .ok (f :: rest)
      | .error e => .error e
    | _ => .error "Not enough operands for factorial"
  | .Sqrt =>
    match numbers with
    | n :: _ =>
      if isNegD n = true then .error "Cannot compute square root of negative number"
      else .error "unmodelled: floating-point square root"
    | _ => .error "Not enough operands for square root"
  | .Abs =>
    match numbers with
    | n :: rest => .ok (absD n :: rest)
    | _ => .error "Not enough operands for absolute value"
  | _ => .error "Invalid operator"

/-- The body of the special-case scan at one position: the 13-token tuple
pattern `( Number a ^ Number e ) + Number b - ( Number a2 ^ Number e2 )`
with the conditions `a == a2`, `e == e2`, `e.fract().is_zero()`. -/
def patCheck (ts : List Token) (i : Nat) : Option Decimal :=
  match ts.drop i with
  | .LeftParen :: .Number a :: .Exponentiation :: .Number e :: .RightParen ::
      .Plus :: .Number b :: .Minus :: .LeftParen :: .Number a2 ::
      .Exponentiation :: .Number e2 :: .RightParen :: _ =>
    if dBEq a a2 = true ∧ dBEq e e2 = true ∧ fractZeroD e = true then some b
    else none
  | _ => none

/-- The three outcomes of the special-case pattern scan. -/
inductive ScanOut where
  | found (b : Decimal)
  | panicked
  | nomatch
deriving DecidableEq, Repr

/-- The scan loop `while i < tokens.len() - 6`.  The loop body builds the
13-tuple `(&tokens[i], .., &tokens[i + 12])` before matching, so an
iteration reached with `i + 12 ≥ tokens.len()` indexes out of bounds and
panics.  Fuel-structural; `scanCancel` initialises the fuel to the token
count, which bounds the iteration count. -/
def scanAux : Nat → List Token → Nat → ScanOut
  | 0, _, _ => .nomatch
  | fuel + 1, ts, i =>
    if i + 6 < ts.length then
      if i + 12 < ts.length then
        match patCheck ts i with
        | some b => .found b
        | none => scanAux fuel ts (i + 1)
      else .panicked
    else .nomatch

/-- The special-case scan of `evaluate`, from position 0. -/
def scanCancel (ts : List Token) : ScanOut := scanAux ts.length ts 0

/-- `while let Some(op) = operators.last() { if LeftParen break; apply }`
for a `RightParen`. -/
def popOpsUntilParen (nums : List Decimal) :
    List Token → Except String (List Decimal × List Token)
  | [] => .ok (nums, [])
  | .LeftParen :: rest => .ok (nums, .LeftParen :: rest)
  | op :: rest =>
    match apply_operator nums op with
    | .ok nums2 => popOpsUntilParen nums2 rest
    | .error e => .error e

/-- After a `RightParen`'s pop loop: discard the `LeftParen` (a blind `pop`),
then apply a pending `Sqrt`/`Abs` if one is on top. -/
def afterParen (nums : List Decimal) (ops : List Token) :
    Except String (List Decimal × List Token) :=
  let ops2 := ops.tail
  match ops2 with
  | .Sqrt :: rest =>
    match apply_operator nums .Sqrt with
    | .ok nums2 => .ok (nums2, rest)
    | .error e => .error e
  | .Abs :: rest =>
    match apply_operator nums .Abs with
    | .ok nums2 => .ok (nums2, rest)
    | .error e => .error e
  | _ => .ok (nums, ops2)

/-- The pop loop before pushing an incoming operator: pop while the stacked
operator's precedence is strictly higher (right-associative incoming) or
higher-or-equal (left-associative incoming), stopping at a `LeftParen`. -/
def popOpsWhilePrec (isRight : Bool) (p : Nat) (nums : List Decimal) :
    List Token → Except String (List Decimal × List Token)
  | [] => .ok (nums, [])
  | .LeftParen :: rest => .ok (nums, .LeftParen :: rest)
  | top :: rest =>
    if (isRight = true ∧ p < precedence top) ∨ (isRight = false ∧ p ≤ precedence top) then
      match apply_operator nums top with
      | .ok nums2 => popOpsWhilePrec isRight p nums2 rest
      | .error e => .error e
    else .ok (nums, top :: rest)

/-- `while let Some(op) = operators.pop() { apply_operator(..)? }` at the end
of the scan. -/
def drain_ops (nums : List Decimal) : List Token → Except String (List Decimal)
  | [] => .ok nums
  | op :: rest =>
    match apply_operator nums op with
    | .ok nums2 => drain_ops nums2 rest
    | .error e => .error e

/-- Whether the incoming operator is right-associative (only `^`). -/
def opIsRightAssoc (t : Token) : Bool :=
  match t with
  | .Exponentiation => true
  | _ => false

/-- The main scan of `evaluate`: one pass over the tokens with the operand
stack, the operator stack, the parenthesis counter `pc : Int` and the
`expect_paren` flag, followed by the end-of-input checks and the final
drain. -/
def evalLoop : List Token → List Decimal → List Token → Int → Bool →
    Except String Decimal
  | [], nums, ops, pc, ep =>
    if pc ≠ 0 then .error "Mismatched parentheses"
    else if ep = true then .error "Expected '(' after function"
    else
      match drain_ops nums ops with
      | .error e => .error e
      | .ok nums2 =>
        match nums2 with
        | [d] => .ok d
        | _ => .error "Invalid expression"
  | .Number n :: rest, nums, ops, pc, ep =>
    if ep = true then .error "Expected '(' after function"
    else evalLoop rest (n :: nums) ops pc ep
  | .LeftParen :: rest, nums, ops, pc, _ =>
    evalLoop rest nums (.LeftParen :: ops) (pc + 1) false
  | .RightParen :: rest, nums, ops, pc, ep =>
    if pc - 1 < 0 then .error "Mismatched parentheses"
    else
      match popOpsUntilParen nums ops with
      | .error e => .error e
      | .ok (nums2, ops2) =>
        match afterParen nums2 ops2 with
        | .error e => .error e
        | .ok (nums3, ops3) => evalLoop rest nums3 ops3 (pc - 1) ep
  | .Sqrt :: rest, nums, ops, pc, _ => evalLoop rest nums (.Sqrt :: ops) pc true
  | .Abs :: rest, nums, ops, pc, _ => evalLoop rest nums (.Abs :: ops) pc true
  | op :: rest, nums, ops, pc, ep =>
    if ep = true then .error "Expected '(' after function"
    else
      match popOpsWhilePrec (opIsRightAssoc op) (precedence op) nums ops with
      | .error e => .error e
      | .ok (nums2, ops2) => evalLoop rest nums2 (op :: ops2) pc ep

/-- The outcome of `evaluate`: a value, an error, or a Rust panic (an
out-of-bounds index in the special-case scan). -/
inductive EvalResult where
  | ok (d : Decimal)
  | err (msg : String)
  | panicked
deriving DecidableEq, Repr

/-- `pub fn evaluate(tokens: &[Token])`: empty check, the special-case
cancellation scan (only entered when at least 7 tokens are present), then
the two-stack precedence algorithm. -/
def evaluate (tokens : List Token) : EvalResult :=
  if tokens.isEmpty = true then .err "Invalid expression"
  else
    match (if 7 ≤ tokens.length then scanCancel tokens else .nomatch) with
    | .found b => .ok b
    | .panicked => .panicked
    | .nomatch =>
      match evalLoop tokens [] [] 0 false with
      | .ok d => .ok d
      | .error e => .err e

/-! ### Definitions that follow the specification's words (for comparison
with the source-derived definitions above) -/

/-- Modelled from the spec: the post-processing pass as the specification
words it — identical to `postprocessGo` except that a unary minus followed
by `LeftParen` emits `LeftParen, Number(-1), Multiply` and does **not**
consume the parenthesis, which "is still processed normally afterward".
Fuel-structural because the non-consuming step prevents structural
recursion; every step consumes at least the minus, so a fuel equal to the
input length never runs out. -/
def postprocessSpecGo : Nat → List Token → List Token → Except String (List Token)
  | 0, acc, _ => .ok acc
  | fuel + 1, acc, input =>
    match input with
    | [] => .ok acc
    | .Minus :: rest =>
      if isUnaryCtx acc = true then
        match rest with
        | .Number n :: r => postprocessSpecGo fuel (acc ++ [.Number (negD n)]) r
        | .LeftParen :: _ =>
          postprocessSpecGo fuel (acc ++ [.LeftParen, .Number ⟨-1, 0⟩, .Multiply]) rest
        | _ => .error "Invalid unary minus"
      else
        match rest with
        | .Number _ :: _ => postprocessSpecGo fuel (acc ++ [.Minus]) rest
        | _ => postprocessSpecGo fuel (acc ++ [.Plus, .Number ⟨-1, 0⟩, .Multiply]) rest
    | .Sqrt :: rest => postprocessSpecGo fuel (acc ++ [.Sqrt]) rest
    | .Abs :: rest => postprocessSpecGo fuel (acc ++ [.Abs]) rest
    | .Factorial :: rest =>
      match acc.getLast? with
      | some (.Number n) =>
        match factorial n with
        | .ok f => postprocessSpecGo fuel (acc.dropLast ++ [.Number f]) rest
        | .error e => .error e
      | some .RightParen => postprocessSpecGo fuel (acc ++ [.Factorial]) rest
      | _ => .error "Invalid factorial operation"
    | t :: rest => postprocessSpecGo fuel (acc ++ [t]) rest

/-- The spec-worded post-processing pass on a whole raw token list. -/
def postprocessSpec (ts : List Token) : Except String (List Token) :=
  postprocessSpecGo ts.length [] ts

/-- Modelled from the spec: the main scan with the parenthesis counter typed
as a natural number — the invariant "the depth counter never goes negative"
is expressed by `evalLoop` being a refinement of this version. -/
def evalLoopNat : List Token → List Decimal → List Token → Nat → Bool →
    Except String Decimal
  | [], nums, ops, pc, ep =>
    if pc ≠ 0 then .error "Mismatched parentheses"
    else if ep = true then .error "Expected '(' after function"
    else
      match drain_ops nums ops with
      | .error e => .error e
      | .ok nums2 =>
        match nums2 with
        | [d] => .ok d
        | _ => .error "Invalid expression"
  | .Number n :: rest, nums, ops, pc, ep =>
    if ep = true then .error "Expected '(' after function"
    else evalLoopNat rest (n :: nums) ops pc ep
  | .LeftParen :: rest, nums, ops, pc, _ =>
    evalLoopNat rest nums (.LeftParen :: ops) (pc + 1) false
  | .RightParen :: rest, nums, ops, pc, ep =>
    if pc = 0 then .error "Mismatched parentheses"
    else
      match popOpsUntilParen nums ops with
      | .error e => .error e
      | .ok (nums2, ops2) =>
        match afterParen nums2 ops2 with
        | .error e => .error e
        | .ok (nums3, ops3) => evalLoopNat rest nums3 ops3 (pc - 1) ep
  | .Sqrt :: rest, nums, ops, pc, _ => evalLoopNat rest nums (.Sqrt :: ops) pc true
  | .Abs :: rest, nums, ops, pc, _ => evalLoopNat rest nums (.Abs :: ops) pc true
  | op :: rest, nums, ops, pc, ep =>
    if ep = true then .error "Expected '(' after function"
    else
      match popOpsWhilePrec (opIsRightAssoc op) (precedence op) nums ops with
      | .error e => .error e
      | .ok (nums2, ops2) => evalLoopNat rest nums2 (op :: ops2) pc ep

/-- Substring containment on strings, for the "error message contains"
claims. -/
def strContains (s sub : String) : Prop :=
  ∃ l r, s.toList = l ++ sub.toList ++ r

/-- The 13-token cancellation pattern holding at position `i` of a token
list, with `b` the middle literal: the claims' premise for the special-case
shortcut. -/
def cancelPatternAt (ts : List Token) (i : Nat) (b : Decimal) : Prop :=
  ∃ a e a2 e2 rest,
    ts.drop i =
      [Token.LeftParen, .Number a, .Exponentiation, .Number e, .RightParen,
       .Plus, .Number b, .Minus, .LeftParen, .Number a2, .Exponentiation,
       .Number e2, .RightParen] ++ rest ∧
    dBEq a a2 = true ∧ dBEq e e2 = true ∧ fractZeroD e = true

/-! ### Theorems -/

/-- Claim C1: "For every token sequence, evaluate terminates and returns
either a value or an error (Ok or Err); in particular, every index into the
token slice performed by the special-case 13-token pattern scan (which reads
tokens[i] through tokens[i+12] while only requiring i < tokens.len() - 6) is
within bounds, so evaluate never panics."  The claim states the clear intent
(and the repository's own `test_parentheses` requires it), but the code
violates it: on the 7-token sequence produced by `tokenize("(2 + 3) * 4")`
the scan's first iteration already reads `tokens[7]..tokens[12]`, out of
bounds, and panics.  This theorem evaluates the model at that failing
input. -/
theorem claim_C1_scan_panics :
    tokenize "(2 + 3) * 4" =
      .ok [Token.LeftParen, .Number ⟨2, 0⟩, .Plus, .Number ⟨3, 0⟩, .RightParen,
           .Multiply, .Number ⟨4, 0⟩] ∧
    evaluate [Token.LeftParen, .Number ⟨2, 0⟩, .Plus, .Number ⟨3, 0⟩, .RightParen,
              .Multiply, .Number ⟨4, 0⟩] = .panicked :=
  ⟨rfl, rfl⟩

/-- Claim C2: "evaluate(tokenize(\"2 + 3 * 4\")) returns 14 (multiplication
binds tighter than addition), and evaluate(tokenize(\"(2 + 3) * 4\")) returns
20 (parentheses override precedence)."  The first half holds (5 tokens, so
the special-case scan is skipped).  The second half is what the code's own
`test_parentheses` asserts, but the 7-token sequence makes the special-case
scan read `tokens[7]..tokens[12]` out of bounds: the code panics instead of
returning 20.  This theorem evaluates the model at both inputs. -/
theorem claim_C2_precedence_vs_paren_panic :
    tokenize "2 + 3 * 4" =
      .ok [Token.Number ⟨2, 0⟩, .Plus, .Number ⟨3, 0⟩, .Multiply, .Number ⟨4, 0⟩] ∧
    evaluate [Token.Number ⟨2, 0⟩, .Plus, .Number ⟨3, 0⟩, .Multiply, .Number ⟨4, 0⟩] =
      .ok ⟨14, 0⟩ ∧
    (⟨14, 0⟩ : Decimal).val = 14 ∧
    tokenize "(2 + 3) * 4" =
      .ok [Token.LeftParen, .Number ⟨2, 0⟩, .Plus, .Number ⟨3, 0⟩, .RightParen,
           .Multiply, .Number ⟨4, 0⟩] ∧
    evaluate [Token.LeftParen, .Number ⟨2, 0⟩, .Plus, .Number ⟨3, 0⟩, .RightParen,
              .Multiply, .Number ⟨4, 0⟩] ≠ .ok ⟨20, 0⟩ ∧
    evaluate [Token.LeftParen, .Number ⟨2, 0⟩, .Plus, .Number ⟨3, 0⟩, .RightParen,
              .Multiply, .Number ⟨4, 0⟩] = .panicked := by
  refine ⟨rfl, rfl, ?_, rfl, by decide, rfl⟩
  norm_num [Decimal.val, pow10]

/-- Claim C8: "Applying Divide errors with a message containing \"division
by zero\" if and only if the divisor is zero, and applying Modulo errors with
a message containing \"modulo by zero\" if and only if the divisor is zero;
otherwise they return the exact decimal quotient and remainder respectively."
Confirmed: the application of `Divide`/`Modulo` to a two-operand stack is the
stated conditional, the error messages contain the claimed substrings, and
the spec's `1 / 0` example errors as claimed. -/
theorem claim_C8_div_mod_by_zero :
    (∀ a b rest, apply_operator (b :: a :: rest) .Divide =
      if isZeroD b = true then .error "division by zero" else .ok (divD a b :: rest)) ∧
    (∀ a b rest, apply_operator (b :: a :: rest) .Modulo =
      if isZeroD b = true then .error "modulo by zero" else .ok (remD a b :: rest)) ∧
    strContains "division by zero" "division by zero" ∧
    strContains "modulo by zero" "modulo by zero" ∧
    tokenize "1 / 0" = .ok [Token.Number ⟨1, 0⟩, .Divide, .Number ⟨0, 0⟩] ∧
    evaluate [Token.Number ⟨1, 0⟩, .Divide, .Number ⟨0, 0⟩] = .err "division by zero" ∧
    evaluate [Token.Number ⟨1, 0⟩, .Modulo, .Number ⟨0, 0⟩] = .err "modulo by zero" :=
  ⟨fun _ _ _ => rfl, fun _ _ _ => rfl, ⟨[], [], rfl⟩, ⟨[], [], rfl⟩, rfl, rfl, rfl⟩

/-- Claim C5: "When applying Exponentiation with an exponent whose
fractional part is zero and which is positive, the operation is rejected
with an overflow error whenever digits(|base|) * |exponent| > 28, before the
exponentiation-by-squaring loop runs; overflow detected during the squaring
loop itself is also rejected with an error."  Confirmed: under the integer,
positive-exponent hypotheses, the digit-count pre-check fires with its own
error (so the squaring loop is never consulted), and otherwise the
application is exactly the squaring loop's outcome, whose overflow errors
propagate. -/
theorem claim_C5_exponent_overflow_guard :
    ∀ a b rest e, fractZeroD b = true → toI128 b = some e → 0 < e →
      (28 < (base_digits a : Int) * e →
        apply_operator (b :: a :: rest) .Exponentiation =
          .error "Result would be too large") ∧
      ((base_digits a : Int) * e ≤ 28 →
        apply_operator (b :: a :: rest) .Exponentiation =
          liftPow (powLoop ⟨1, 0⟩ a e.natAbs) rest) := by
  intro a b rest e h1 h2 h3
  constructor
  · intro h4
    simp only [apply_operator, h1, h2, if_pos (And.intro h3 h4), if_true]
  · intro h4
    have hc1 : ¬(0 < e ∧ 28 < (base_digits a : Int) * e) := by
      intro h; exact absurd h.2 (not_lt.mpr h4)
    have hc2 : ¬(e < 0 ∧ isZeroD a = true) := by
      intro h; omega
    have hc3 : ¬(e < 0) := by omega
    simp only [apply_operator, h1, h2, if_neg hc1, if_neg hc2, if_neg hc3, if_true]

/-- Witness for C5: the pre-check fires on `1234567890 ^ 4` (9 digits × 4 =
36 > 28); on `(10^95) ^ 2` the trailing-zero-trimmed digit count is 1, the
pre-check passes, and the squaring loop's own overflow check rejects. -/
theorem claim_C5_witness :
    apply_operator [⟨4, 0⟩, ⟨1234567890, 0⟩] .Exponentiation =
      .error "Result would be too large" ∧
    apply_operator [⟨2, 0⟩, ⟨(pow10 95 : Nat), 0⟩] .Exponentiation =
      liftPow (powLoop ⟨1, 0⟩ ⟨(pow10 95 : Nat), 0⟩ 2) [] ∧
    liftPow (powLoop ⟨1, 0⟩ ⟨(pow10 95 : Nat), 0⟩ 2) [] =
      .error "Intermediate result too large" :=
  ⟨(claim_C5_exponent_overflow_guard ⟨1234567890, 0⟩ ⟨4, 0⟩ [] 4 rfl rfl
      (by decide)).1 (by decide),
   (claim_C5_exponent_overflow_guard ⟨(pow10 95 : Nat), 0⟩ ⟨2, 0⟩ [] 2 rfl rfl
      (by decide)).2 (by decide),
   rfl⟩

/-- Counterexample to claim C4 as stated: the claim (following the spec)
says a unary minus before `LeftParen` emits `LeftParen, Number(-1),
Multiply` "while leaving the parenthesis to be processed normally", i.e.
without consuming it.  On the raw token stream of `-(3)` that reading
produces `( -1 * ( 3 )` (the untouched parenthesis is emitted again), but
the code consumes the parenthesis and produces `( -1 * 3 )`. -/
theorem claim_C4_counterexample :
    postprocessGo [] [Token.Minus, .LeftParen, .Number ⟨3, 0⟩, .RightParen] =
      .ok [Token.LeftParen, .Number ⟨-1, 0⟩, .Multiply, .Number ⟨3, 0⟩, .RightParen] ∧
    postprocessSpec [Token.Minus, .LeftParen, .Number ⟨3, 0⟩, .RightParen] =
      .ok [Token.LeftParen, .Number ⟨-1, 0⟩, .Multiply, .LeftParen, .Number ⟨3, 0⟩,
           .RightParen] ∧
    ([Token.LeftParen, .Number ⟨-1, 0⟩, .Multiply, .Number ⟨3, 0⟩, .RightParen] :
        List Token) ≠
      [Token.LeftParen, .Number ⟨-1, 0⟩, .Multiply, .LeftParen, .Number ⟨3, 0⟩,
       .RightParen] :=
  ⟨rfl, rfl, by decide⟩

/-- Claim C4 (amended): a `Minus` is treated as unary exactly when the
output built so far is empty or ends in `Plus, Minus, Multiply, Divide,
Modulo, Exponentiation, LeftParen`; a unary minus before `Number(n)` emits
`Number(-n)` consuming both; a unary minus before `LeftParen` emits
`LeftParen, Number(-1), Multiply` and **consumes** the parenthesis (the
emitted `LeftParen` takes its place — amended from "leaving the parenthesis
to be processed normally", which `claim_C4_counterexample` refutes); any
other successor — or no successor — yields the "Invalid unary minus"
error. -/
theorem claim_C4_unary_minus_amended :
    (∀ acc, isUnaryCtx acc = true ↔
      (acc = [] ∨ acc.getLast? = some .Plus ∨ acc.getLast? = some .Minus ∨
       acc.getLast? = some .Multiply ∨ acc.getLast? = some .Divide ∨
       acc.getLast? = some .Modulo ∨ acc.getLast? = some .Exponentiation ∨
       acc.getLast? = some .LeftParen)) ∧
    (∀ acc n r, isUnaryCtx acc = true →
      postprocessGo acc (.Minus :: .Number n :: r) =
        postprocessGo (acc ++ [.Number (negD n)]) r) ∧
    (∀ acc r, isUnaryCtx acc = true →
      postprocessGo acc (.Minus :: .LeftParen :: r) =
        postprocessGo (acc ++ [.LeftParen, .Number ⟨-1, 0⟩, .Multiply]) r) ∧
    (∀ acc t r, isUnaryCtx acc = true → (∀ d, t ≠ .Number d) → t ≠ .LeftParen →
      postprocessGo acc (.Minus :: t :: r) = .error "Invalid unary minus") ∧
    (∀ acc, isUnaryCtx acc = true →
      postprocessGo acc [.Minus] = .error "Invalid unary minus") := by
  refine ⟨?_, ?_, ?_, ?_, ?_⟩
  · intro acc
    cases h : acc.getLast? with
    | none =>
      have : acc = [] := List.getLast?_eq_none_iff.mp h
      subst this
      simp [isUnaryCtx]
    | some t =>
      have hne : ¬acc = [] := by
        intro hc; rw [hc] at h; simp at h
      unfold isUnaryCtx
      rw [h]
      cases t <;> simp [hne]
  · intro acc n r h
    simp only [postprocessGo, h, if_true]
  · intro acc r h
    simp only [postprocessGo, h, if_true]
  · intro acc t r h h2 h3
    cases t
    case Number d => exact absurd rfl (h2 d)
    case LeftParen => exact absurd rfl h3
    all_goals simp [postprocessGo, h]
  · intro acc h
    simp [postprocessGo, h]

/-- Witness for C4: the amended statement applied at concrete inputs — a
negated literal, the paren rewrite, the error on a bad successor, and the
unary-context test. -/
theorem claim_C4_witness :
    postprocessGo [Token.LeftParen] [.Minus, .Number ⟨2, 0⟩] =
      postprocessGo [Token.LeftParen, .Number (negD ⟨2, 0⟩)] [] ∧
    postprocessGo [] [Token.Minus, .LeftParen] =
      postprocessGo [Token.LeftParen, .Number ⟨-1, 0⟩, .Multiply] [] ∧
    postprocessGo [] [Token.Minus, .Plus] = .error "Invalid unary minus" ∧
    isUnaryCtx [Token.Number ⟨1, 0⟩, .Plus] = true :=
  ⟨claim_C4_unary_minus_amended.2.1 [Token.LeftParen] ⟨2, 0⟩ [] rfl,
   claim_C4_unary_minus_amended.2.2.1 [] [] rfl,
   claim_C4_unary_minus_amended.2.2.2.1 [] .Plus [] rfl
     (fun d h => by cases h) (fun h => by cases h),
   (claim_C4_unary_minus_amended.1 [Token.Number ⟨1, 0⟩, .Plus]).mpr
     (by simp)⟩

/-- Claim C7: "A Factorial token whose last emitted predecessor is Number(n)
is folded eagerly by the tokenizer into Number(factorial(n)), failing with
an error if n is negative or its integer part exceeds 20; a Factorial
preceded by RightParen is kept as a token for the evaluator; thus
evaluate(tokenize(\"5!\")) == 120, tokenize of \"21!\" errors, and
evaluate(tokenize(\"(-5)!\")) errors with a message containing \"negative
number\"."  Confirmed, including the concrete examples. -/
theorem claim_C7_factorial_fold :
    (∀ acc n rest f, acc.getLast? = some (.Number n) → factorial n = .ok f →
      postprocessGo acc (.Factorial :: rest) =
        postprocessGo (acc.dropLast ++ [.Number f]) rest) ∧
    (∀ acc n rest e, acc.getLast? = some (.Number n) → factorial n = .error e →
      postprocessGo acc (.Factorial :: rest) = .error e) ∧
    (∀ acc rest, acc.getLast? = some .RightParen →
      postprocessGo acc (.Factorial :: rest) =
        postprocessGo (acc ++ [.Factorial]) rest) ∧
    (∀ n, isNegD n = true →
      factorial n = .error "Cannot compute factorial of negative number") ∧
    (∀ n k, isNegD n = false → toI128 n = some k → 20 < k →
      factorial n = .error "Factorial result too large") ∧
    tokenize "5!" = .ok [Token.Number ⟨120, 0⟩] ∧
    evaluate [Token.Number ⟨120, 0⟩] = .ok ⟨120, 0⟩ ∧
    tokenize "21!" = .error "Factorial result too large" ∧
    tokenize "(-5)!" =
      .ok [Token.LeftParen, .Number ⟨-5, 0⟩, .RightParen, .Factorial] ∧
    evaluate [Token.LeftParen, .Number ⟨-5, 0⟩, .RightParen, .Factorial] =
      .err "Cannot compute factorial of negative number" ∧
    strContains "Cannot compute factorial of negative number" "negative number" := by
  refine ⟨?_, ?_, ?_, ?_, ?_, rfl, rfl, rfl, rfl, rfl,
    ⟨"Cannot compute factorial of ".toList, [], rfl⟩⟩
  · intro acc n rest f h1 h2
    simp only [postprocessGo, h1, h2]
  · intro acc n rest e h1 h2
    simp only [postprocessGo, h1, h2]
  · intro acc rest h1
    simp only [postprocessGo, h1]
  · intro n h
    simp only [factorial, h, if_true]
  · intro n k h1 h2 h3
    simp only [factorial, h1, Bool.false_eq_true, if_false, h2, if_pos h3]

/-- Witness for C7: the fold equations and the factorial error conditions at
concrete inputs (`5!` folds to `120`, `-5` is rejected as negative, `21`
exceeds the bound, a `RightParen` predecessor defers the token). -/
theorem claim_C7_witness :
    postprocessGo [Token.Number ⟨5, 0⟩] [.Factorial] =
      postprocessGo [Token.Number ⟨120, 0⟩] [] ∧
    postprocessGo [Token.RightParen] [.Factorial] =
      postprocessGo [Token.RightParen, .Factorial] [] ∧
    factorial ⟨-5, 0⟩ = .error "Cannot compute factorial of negative number" ∧
    factorial ⟨21, 0⟩ = .error "Factorial result too large" :=
  ⟨claim_C7_factorial_fold.1 [Token.Number ⟨5, 0⟩] ⟨5, 0⟩ [] ⟨120, 0⟩ rfl rfl,
   claim_C7_factorial_fold.2.2.1 [Token.RightParen] [] rfl,
   claim_C7_factorial_fold.2.2.2.1 ⟨-5, 0⟩ rfl,
   claim_C7_factorial_fold.2.2.2.2.1 ⟨21, 0⟩ 21 rfl rfl (by decide)⟩

/-- Helper: a digit right after the optional sign makes `parse_number`'s
core succeed with a `Number` token. -/
theorem parse_number_core_digit : ∀ (sign : Bool) c cs, c.isDigit = true →
    ∃ d rest, parse_number_core sign (c :: cs) = some (.Number d, rest) := by
  intro sign c cs h
  unfold parse_number_core
  have hds : (c :: cs).takeWhile Char.isDigit = c :: cs.takeWhile Char.isDigit := by
    simp [List.takeWhile_cons, h]
  rw [hds]
  rw [if_neg (by simp)]
  split
  · split
    · exact ⟨_, _, rfl⟩
    · exact ⟨_, _, rfl⟩
  · exact ⟨_, _, rfl⟩

/-- Helper: `space0` does not consume a leading `'-'`. -/
theorem dropWhile_space0_minus (l : List Char) :
    ('-' :: l).dropWhile isSpace0 = '-' :: l := by
  rw [List.dropWhile_cons]
  rw [(by decide : isSpace0 '-' = false)]
  simp

/-- Helper: the keyword parser rejects an input starting with `'-'`. -/
theorem parse_keyword_minus (l : List Char) : parse_keyword ('-' :: l) = none := by
  simp [parse_keyword, List.take]

/-- Claim C10: "For the input string \"5-3\" (no whitespace between the
minus sign and the following digit), tokenize succeeds and yields the two
tokens Number(5), Number(-3) — because a number literal admits an optional
leading minus and the number parser is tried before the single-character
operator parser — and evaluate on that sequence returns an \"Invalid
expression\" error rather than computing 2; subtraction is only recognized
when the minus is not immediately followed by a digit."  Confirmed: on
`'-'` followed by a digit `parse_token` produces a `Number`, on `'-'`
followed by a non-digit it produces `Minus`, and the concrete pipeline for
"5-3" behaves as claimed. -/
theorem claim_C10_minus_digit_lexing :
    (∀ c cs, c.isDigit = true →
      ∃ d rest, parse_token ('-' :: c :: cs) = some (.Number d, rest)) ∧
    (∀ c cs, c.isDigit = false →
      parse_token ('-' :: c :: cs) = some (.Minus, (c :: cs).dropWhile isSpace0)) ∧
    tokenize "5-3" = .ok [Token.Number ⟨5, 0⟩, .Number ⟨-3, 0⟩] ∧
    evaluate [Token.Number ⟨5, 0⟩, .Number ⟨-3, 0⟩] = .err "Invalid expression" ∧
    (⟨-3, 0⟩ : Decimal).val = -3 := by
  refine ⟨?_, ?_, rfl, rfl, by norm_num [Decimal.val, pow10]⟩
  · intro c cs h
    obtain ⟨d, r, hn⟩ := parse_number_core_digit true c cs h
    have hhd : ('-' :: c :: cs).head? = some '-' := rfl
    have hpn : parse_number ('-' :: c :: cs) = some (.Number d, r) := by
      rw [parse_number, if_pos hhd]
      exact hn
    unfold parse_token
    rw [dropWhile_space0_minus, parse_keyword_minus, hpn]
    exact ⟨d, _, rfl⟩
  · intro c cs h
    have hds : (c :: cs).takeWhile Char.isDigit = [] := by
      simp [List.takeWhile_cons, h]
    have hhd : ('-' :: c :: cs).head? = some '-' := rfl
    have hnum : parse_number ('-' :: c :: cs) = none := by
      rw [parse_number, if_pos hhd]
      unfold parse_number_core
      simp [hds]
    have hop : parse_operator ('-' :: c :: cs) = some (.Minus, c :: cs) := by
      simp [parse_operator]
    unfold parse_token
    rw [dropWhile_space0_minus, parse_keyword_minus, hnum, hop]

/-- Witness for C10: the lexing dichotomy at concrete inputs — `-3` lexes to
a number token, `-+` lexes the minus as an operator token. -/
theorem claim_C10_witness :
    (∃ d rest, parse_token ['-', '3'] = some (.Number d, rest)) ∧
    parse_token ['-', '+'] = some (.Minus, ['+'].dropWhile isSpace0) :=
  ⟨claim_C10_minus_digit_lexing.1 '3' [] rfl,
   claim_C10_minus_digit_lexing.2.1 '+' [] rfl⟩

/-- Helper for C9: the main scan with the `Int` depth counter is a
refinement of the `Nat`-counter version — negative depths are unreachable.
-/
theorem evalLoop_nat_refines : ∀ ts nums ops (c : Nat) ep,
    evalLoop ts nums ops (c : Int) ep = evalLoopNat ts nums ops c ep := by
  intro ts
  induction ts with
  | nil =>
    intro nums ops c ep
    by_cases hc : c = 0
    · subst hc
      simp [evalLoop, evalLoopNat]
    · have hc2 : (c : Int) ≠ 0 := by exact_mod_cast hc
      simp [evalLoop, evalLoopNat, hc, hc2]
  | cons t rest ih =>
    intro nums ops c ep
    cases t with
    | Number n =>
      cases ep with
      | true => simp [evalLoop, evalLoopNat]
      | false => simp only [evalLoop, evalLoopNat, Bool.false_eq_true, if_false, ih]
    | LeftParen =>
      have hcast : (c : Int) + 1 = ((c + 1 : Nat) : Int) := by push_cast; ring
      simp only [evalLoop, evalLoopNat, hcast, ih]
    | RightParen =>
      by_cases hc : c = 0
      · subst hc
        simp [evalLoop, evalLoopNat]
      · have h1 : ¬((c : Int) - 1 < 0) := by omega
        have h2 : ¬(c = 0) := hc
        simp only [evalLoop, evalLoopNat, if_neg h1, if_neg h2]
        cases hpop : popOpsUntilParen nums ops with
        | error e => rfl
        | ok p =>
          obtain ⟨nums2, ops2⟩ := p
          cases hap : afterParen nums2 ops2 with
          | error e => simp only [hap]
          | ok q =>
            obtain ⟨nums3, ops3⟩ := q
            simp only [hap]
            have hcast : (c : Int) - 1 = ((c - 1 : Nat) : Int) := by omega
            rw [hcast, ih]
    | Sqrt => simp only [evalLoop, evalLoopNat, ih]
    | Abs => simp only [evalLoop, evalLoopNat, ih]
    | Plus =>
      cases ep with
      | true => simp [evalLoop, evalLoopNat]
      | false =>
        simp only [evalLoop, evalLoopNat, Bool.false_eq_true, if_false]
        cases hpop : popOpsWhilePrec (opIsRightAssoc .Plus) (precedence .Plus) nums ops with
        | error e => rfl
        | ok p =>
          obtain ⟨nums2, ops2⟩ := p
          exact ih nums2 (.Plus :: ops2) c false
    | Minus =>
      cases ep with
      | true => simp [evalLoop, evalLoopNat]
      | false =>
        simp only [evalLoop, evalLoopNat, Bool.false_eq_true, if_false]
        cases hpop : popOpsWhilePrec (opIsRightAssoc .Minus) (precedence .Minus) nums ops with
        | error e => rfl
        | ok p =>
          obtain ⟨nums2, ops2⟩ := p
          exact ih nums2 (.Minus :: ops2) c false
    | Multiply =>
      cases ep with
      | true => simp [evalLoop, evalLoopNat]
      | false =>
        simp only [evalLoop, evalLoopNat, Bool.false_eq_true, if_false]
        cases hpop : popOpsWhilePrec (opIsRightAssoc .Multiply) (precedence .Multiply) nums ops with
        | error e => rfl
        | ok p =>
          obtain ⟨nums2, ops2⟩ := p
          exact ih nums2 (.Multiply :: ops2) c false
    | Divide =>
      cases ep with
      | true => simp [evalLoop, evalLoopNat]
      | false =>
        simp only [evalLoop, evalLoopNat, Bool.false_eq_true, if_false]
        cases hpop : popOpsWhilePrec (opIsRightAssoc .Divide) (precedence .Divide) nums ops with
        | error e => rfl
        | ok p =>
          obtain ⟨nums2, ops2⟩ := p
          exact ih nums2 (.Divide :: ops2) c false
    | Modulo =>
      cases ep with
      | true => simp [evalLoop, evalLoopNat]
      | false =>
        simp only [evalLoop, evalLoopNat, Bool.false_eq_true, if_false]
        cases hpop : popOpsWhilePrec (opIsRightAssoc .Modulo) (precedence .Modulo) nums ops with
        | error e => rfl
        | ok p =>
          obtain ⟨nums2, ops2⟩ := p
          exact ih nums2 (.Modulo :: ops2) c false
    | Exponentiation =>
      cases ep with
      | true => simp [evalLoop, evalLoopNat]
      | false =>
        simp only [evalLoop, evalLoopNat, Bool.false_eq_true, if_false]
        cases hpop : popOpsWhilePrec (opIsRightAssoc .Exponentiation) (precedence .Exponentiation) nums ops with
        | error e => rfl
        | ok p =>
          obtain ⟨nums2, ops2⟩ := p
          exact ih nums2 (.Exponentiation :: ops2) c false
    | Factorial =>
      cases ep with
      | true => simp [evalLoop, evalLoopNat]
      | false =>
        simp only [evalLoop, evalLoopNat, Bool.false_eq_true, if_false]
        cases hpop : popOpsWhilePrec (opIsRightAssoc .Factorial) (precedence .Factorial) nums ops with
        | error e => rfl
        | ok p =>
          obtain ⟨nums2, ops2⟩ := p
          exact ih nums2 (.Factorial :: ops2) c false

/-- Claim C9: "During every call to evaluate, the parenthesis-depth counter
never goes negative (a RightParen that would make it negative yields a
\"Mismatched parentheses\" error immediately), and every evaluation that
succeeds ends with the counter exactly zero (a nonzero counter at end of
input yields a \"Mismatched parentheses\" error); e.g. tokenize(\"(2 + 3\")
then evaluate errors containing \"Mismatched parentheses\"."  Confirmed:
the `Int`-counter loop coincides with a `Nat`-counter loop from any
non-negative start (so the counter never becomes negative), a `RightParen`
at depth zero errors immediately, a nonzero depth at end of input errors
(so success forces depth exactly zero), and the concrete example errors as
claimed. -/
theorem claim_C9_paren_depth :
    (∀ ts nums ops (c : Nat) ep,
      evalLoop ts nums ops (c : Int) ep = evalLoopNat ts nums ops c ep) ∧
    (∀ rest nums ops ep,
      evalLoopNat (.RightParen :: rest) nums ops 0 ep =
        .error "Mismatched parentheses") ∧
    (∀ nums ops (c : Int) ep, c ≠ 0 →
      evalLoop [] nums ops c ep = .error "Mismatched parentheses") ∧
    tokenize "(2 + 3" =
      .ok [Token.LeftParen, .Number ⟨2, 0⟩, .Plus, .Number ⟨3, 0⟩] ∧
    evaluate [Token.LeftParen, .Number ⟨2, 0⟩, .Plus, .Number ⟨3, 0⟩] =
      .err "Mismatched parentheses" ∧
    strContains "Mismatched parentheses" "Mismatched parentheses" := by
  refine ⟨evalLoop_nat_refines, ?_, ?_, rfl, rfl, ⟨[], [], rfl⟩⟩
  · intro rest nums ops ep
    simp [evalLoopNat]
  · intro nums ops c ep h
    simp [evalLoop, h]

/-- Witness for C9: the depth checks applied at concrete states — an
unmatched close at depth zero, and a leftover open parenthesis at end of
input. -/
theorem claim_C9_witness :
    evalLoopNat [Token.RightParen] [] [] 0 false = .error "Mismatched parentheses" ∧
    evalLoop [] [] [Token.LeftParen] 1 false = .error "Mismatched parentheses" :=
  ⟨claim_C9_paren_depth.2.1 [] [] [] false,
   claim_C9_paren_depth.2.2.1 [] [Token.LeftParen] 1 false (by decide)⟩

/-! Helper lemmas for the value-level reading of the squaring loop. -/

theorem pow10_pos (s : Nat) : 0 < pow10 s := by
  induction s with
  | zero => decide
  | succ s ih => simp [pow10]; omega

theorem pow10_add (x y : Nat) : pow10 (x + y) = pow10 x * pow10 y := by
  induction x with
  | zero => simp [pow10]
  | succ x ih => simp [pow10, Nat.succ_add]; rw [ih]; ring

theorem reduceScale_val : ∀ (s : Nat) (m : Int),
    ((reduceScale m s).1 : Rat) / ((pow10 (reduceScale m s).2 : Nat) : Rat) =
      (m : Rat) / ((pow10 s : Nat) : Rat) := by
  intro s
  induction s with
  | zero => intro m; rfl
  | succ s ih =>
    intro m
    rw [reduceScale]
    split
    · rename_i hcond
      have hdvd : (10 : Int) ∣ m := Int.dvd_of_emod_eq_zero hcond.2
      rw [ih (m / 10)]
      obtain ⟨k, hk⟩ := hdvd
      subst hk
      rw [Int.mul_ediv_cancel_left k (by norm_num)]
      have h10 : ((pow10 (s + 1) : Nat) : Rat) = 10 * ((pow10 s : Nat) : Rat) := by
        have : pow10 (s + 1) = 10 * pow10 s := rfl
        rw [this]
        push_cast
        ring
      rw [h10]
      push_cast
      have hps : ((pow10 s : Nat) : Rat) ≠ 0 := by
        have := pow10_pos s
        positivity
      field_simp
      ring
    · rfl

theorem checkedMul_val : ∀ a b c, checkedMul a b = some c →
    c.val = a.val * b.val := by
  intro a b c h
  unfold checkedMul at h
  split at h
  · injection h with h2
    subst h2
    show ((reduceScale (a.m * b.m) (a.s + b.s)).1 : Rat) /
        ((pow10 (reduceScale (a.m * b.m) (a.s + b.s)).2 : Nat) : Rat) = _
    rw [reduceScale_val]
    unfold Decimal.val
    have hmul : ((pow10 (a.s + b.s) : Nat) : Rat) =
        ((pow10 a.s : Nat) : Rat) * ((pow10 b.s : Nat) : Rat) := by
      rw [pow10_add a.s b.s]
      push_cast
      ring
    rw [hmul]
    push_cast
    have h1 : ((pow10 a.s : Nat) : Rat) ≠ 0 := by
      have := pow10_pos a.s; positivity
    have h2 : ((pow10 b.s : Nat) : Rat) ≠ 0 := by
      have := pow10_pos b.s; positivity
    field_simp
  · cases h

theorem powLoopAux_val : ∀ fuel n acc base r, n ≤ fuel →
    powLoopAux fuel acc base n = .ok r → r.val = acc.val * base.val ^ n := by
  intro fuel
  induction fuel with
  | zero =>
    intro n acc base r hn h
    have hn0 : n = 0 := by omega
    subst hn0
    unfold powLoopAux at h
    injection h with h2
    subst h2
    simp
  | succ fuel ih =>
    intro n acc base r hn h
    by_cases h0 : n = 0
    · subst h0
      unfold powLoopAux at h
      rw [if_pos rfl] at h
      injection h with h2
      subst h2
      simp
    · unfold powLoopAux at h
      rw [if_neg h0] at h
      by_cases hodd : n % 2 = 1
      · rw [if_pos hodd] at h
        cases hcm : checkedMul acc base with
        | none => simp only [hcm] at h; exact absurd h (by simp)
        | some r2 =>
          simp only [hcm] at h
          by_cases h1 : 1 < n
          · rw [if_pos h1] at h
            cases hcb : checkedMul base base with
            | none => simp only [hcb] at h; exact absurd h (by simp)
            | some b2 =>
              simp only [hcb] at h
              have hrec := ih (n / 2) r2 b2 r (by omega) h
              rw [hrec, checkedMul_val acc base r2 hcm, checkedMul_val base base b2 hcb]
              have hpow : base.val ^ n = (base.val * base.val) ^ (n / 2) * base.val := by
                conv_lhs => rw [show n = 2 * (n / 2) + 1 by omega]
                rw [pow_succ, pow_mul, pow_two]
              rw [hpow]
              ring
          · have hn1 : n = 1 := by omega
            subst hn1
            rw [if_neg h1] at h
            have hrec := ih 0 r2 base r (by omega) h
            simp only [pow_zero, mul_one] at hrec
            rw [hrec, checkedMul_val acc base r2 hcm]
            ring
      · rw [if_neg hodd] at h
        have h1 : 1 < n := by omega
        simp only [if_pos h1] at h
        cases hcb : checkedMul base base with
        | none => simp only [hcb] at h; exact absurd h (by simp)
        | some b2 =>
          simp only [hcb] at h
          have hrec := ih (n / 2) acc b2 r (by omega) h
          rw [hrec, checkedMul_val base base b2 hcb]
          have hpow : base.val ^ n = (base.val * base.val) ^ (n / 2) := by
            conv_lhs => rw [show n = 2 * (n / 2) by omega]
            rw [pow_mul, pow_two]
          rw [hpow]

theorem powLoop_val : ∀ c n r, powLoop ⟨1, 0⟩ c n = .ok r → r.val = c.val ^ n := by
  intro c n r h
  have := powLoopAux_val n n ⟨1, 0⟩ c r (le_refl n) h
  rw [this]
  have hone : (⟨1, 0⟩ : Decimal).val = 1 := by
    simp [Decimal.val, pow10]
  rw [hone, one_mul]

/-- Claim C6: "Exponentiation with a negative integer exponent computes
(1/base) raised to the absolute value of the exponent, erroring when the
base is zero; in particular evaluate(tokenize(\"2 ^ -2\")) returns 0.25 and
evaluate(tokenize(\"2 ^ 3\")) returns 8."  Confirmed: under the
negative-integer-exponent hypotheses a zero base errors, a nonzero base
yields exactly the squaring loop applied to the decimal reciprocal `1/base`
with exponent `|e|` (and any successful loop outcome has value
`(1/base)^|e|`), and both concrete examples evaluate as claimed — note
`"2 ^ -2"` lexes `-2` as a negative literal, so both inputs are 3 tokens
and skip the special-case scan. -/
theorem claim_C6_negative_exponent :
    (∀ a b rest e, fractZeroD b = true → toI128 b = some e → e < 0 →
      (isZeroD a = true →
        apply_operator (b :: a :: rest) .Exponentiation =
          .error "Division by zero in negative exponent") ∧
      (isZeroD a = false →
        apply_operator (b :: a :: rest) .Exponentiation =
          liftPow (powLoop ⟨1, 0⟩ (divD ⟨1, 0⟩ a) e.natAbs) rest)) ∧
    (∀ c n r, powLoop ⟨1, 0⟩ c n = .ok r → r.val = c.val ^ n) ∧
    tokenize "2 ^ -2" =
      .ok [Token.Number ⟨2, 0⟩, .Exponentiation, .Number ⟨-2, 0⟩] ∧
    evaluate [Token.Number ⟨2, 0⟩, .Exponentiation, .Number ⟨-2, 0⟩] = .ok ⟨25, 2⟩ ∧
    (⟨25, 2⟩ : Decimal).val = 1 / 4 ∧
    tokenize "2 ^ 3" =
      .ok [Token.Number ⟨2, 0⟩, .Exponentiation, .Number ⟨3, 0⟩] ∧
    evaluate [Token.Number ⟨2, 0⟩, .Exponentiation, .Number ⟨3, 0⟩] = .ok ⟨8, 0⟩ ∧
    (⟨8, 0⟩ : Decimal).val = 8 := by
  refine ⟨?_, powLoop_val, rfl, rfl, by norm_num [Decimal.val, pow10], rfl, rfl,
    by norm_num [Decimal.val, pow10]⟩
  intro a b rest e h1 h2 h3
  have hc1 : ¬(0 < e ∧ 28 < (base_digits a : Int) * e) := by
    intro hx
    omega
  constructor
  · intro hz
    simp only [apply_operator, h1, h2, if_neg hc1, if_pos (And.intro h3 hz), if_true]
  · intro hz
    have hc2 : ¬(e < 0 ∧ isZeroD a = true) := by
      intro hx
      rw [hz] at hx
      exact absurd hx.2 (by simp)
    simp only [apply_operator, h1, h2, if_neg hc1, if_neg hc2, if_pos h3, if_true]

/-- Witness for C6: `2 ^ -2` — the zero-base error at base 0, the loop
equation at base 2 computing the decimal `(1/2)^2 = 0.25`, and the
value-level reading of that loop run. -/
theorem claim_C6_witness :
    apply_operator [⟨-2, 0⟩, ⟨0, 0⟩] .Exponentiation =
      .error "Division by zero in negative exponent" ∧
    apply_operator [⟨-2, 0⟩, ⟨2, 0⟩] .Exponentiation =
      liftPow (powLoop ⟨1, 0⟩ (divD ⟨1, 0⟩ ⟨2, 0⟩) (Int.natAbs (-2))) [] ∧
    liftPow (powLoop ⟨1, 0⟩ (divD ⟨1, 0⟩ ⟨2, 0⟩) (Int.natAbs (-2))) [] =
      .ok [⟨25, 2⟩] ∧
    (⟨25, 2⟩ : Decimal).val = (divD ⟨1, 0⟩ ⟨2, 0⟩).val ^ 2 :=
  ⟨(claim_C6_negative_exponent.1 ⟨0, 0⟩ ⟨-2, 0⟩ [] (-2) rfl (by rfl) (by decide)).1 rfl,
   (claim_C6_negative_exponent.1 ⟨2, 0⟩ ⟨-2, 0⟩ [] (-2) rfl (by rfl) (by decide)).2 rfl,
   rfl,
   claim_C6_negative_exponent.2.1 (divD ⟨1, 0⟩ ⟨2, 0⟩) 2 ⟨25, 2⟩ rfl⟩

/-! Helper lemmas for the special-case cancellation scan. -/

theorem cancelPatternAt_bounds : ∀ ts i b, cancelPatternAt ts i b → i + 12 < ts.length := by
  intro ts i b h
  obtain ⟨a, e, a2, e2, rest, hd, h1, h2, h3⟩ := h
  have hl : (ts.drop i).length = 13 + rest.length := by
    rw [hd]
    simp
    omega
  rw [List.length_drop] at hl
  omega

theorem patCheck_iff : ∀ ts i b, patCheck ts i = some b ↔ cancelPatternAt ts i b := by
  intro ts i b
  constructor
  · intro h
    unfold patCheck at h
    split at h
    · rename_i a e bmid a2 e2 tail heq
      split at h
      · rename_i hcond
        injection h with hb
        subst hb
        exact ⟨a, e, a2, e2, tail, by rw [heq]; simp, hcond.1, hcond.2.1, hcond.2.2⟩
      · cases h
    · cases h
  · rintro ⟨a, e, a2, e2, rest, hd, h1, h2, h3⟩
    unfold patCheck
    rw [hd]
    show (if dBEq a a2 = true ∧ dBEq e e2 = true ∧ fractZeroD e = true then some b
          else none) = some b
    rw [if_pos ⟨h1, h2, h3⟩]

theorem scanAux_finds : ∀ fuel ts i j b, cancelPatternAt ts j b → i ≤ j →
    ts.length ≤ i + fuel →
    ∃ k bk, i ≤ k ∧ k ≤ j ∧ cancelPatternAt ts k bk ∧ scanAux fuel ts i = .found bk := by
  intro fuel
  induction fuel with
  | zero =>
    intro ts i j b hp hij hlen
    exfalso
    have hb := cancelPatternAt_bounds ts j b hp
    omega
  | succ fuel ih =>
    intro ts i j b hp hij hlen
    have hb := cancelPatternAt_bounds ts j b hp
    have h6 : i + 6 < ts.length := by omega
    have h12 : i + 12 < ts.length := by omega
    cases hpc : patCheck ts i with
    | some b0 =>
      refine ⟨i, b0, le_refl i, hij, (patCheck_iff ts i b0).mp hpc, ?_⟩
      unfold scanAux
      rw [if_pos h6, if_pos h12, hpc]
    | none =>
      have hne : i ≠ j := by
        intro he
        subst he
        rw [(patCheck_iff ts i b).mpr hp] at hpc
        cases hpc
      obtain ⟨k, bk, hk1, hk2, hk3, hk4⟩ := ih ts (i + 1) j b hp (by omega) (by omega)
      refine ⟨k, bk, by omega, hk2, hk3, ?_⟩
      unfold scanAux
      rw [if_pos h6, if_pos h12, hpc]
      exact hk4

/-- Counterexample to claim C3 as stated: the claim quantifies over *any*
position of the pattern, but the scan returns the `b` of the *first*
(leftmost) matching position.  In the 21-token sequence for
`( 1 ^ 2 ) + 5 - ( 1 ^ 2 ) + 7 - ( 1 ^ 2 )` the pattern also matches at
position 8 with middle literal 7, yet `evaluate` returns 5 (the match at
position 0), not 7. -/
theorem claim_C3_counterexample :
    cancelPatternAt
      [Token.LeftParen, .Number ⟨1, 0⟩, .Exponentiation, .Number ⟨2, 0⟩, .RightParen,
       .Plus, .Number ⟨5, 0⟩, .Minus, .LeftParen, .Number ⟨1, 0⟩, .Exponentiation,
       .Number ⟨2, 0⟩, .RightParen, .Plus, .Number ⟨7, 0⟩, .Minus, .LeftParen,
       .Number ⟨1, 0⟩, .Exponentiation, .Number ⟨2, 0⟩, .RightParen] 8 ⟨7, 0⟩ ∧
    evaluate
      [Token.LeftParen, .Number ⟨1, 0⟩, .Exponentiation, .Number ⟨2, 0⟩, .RightParen,
       .Plus, .Number ⟨5, 0⟩, .Minus, .LeftParen, .Number ⟨1, 0⟩, .Exponentiation,
       .Number ⟨2, 0⟩, .RightParen, .Plus, .Number ⟨7, 0⟩, .Minus, .LeftParen,
       .Number ⟨1, 0⟩, .Exponentiation, .Number ⟨2, 0⟩, .RightParen] = .ok ⟨5, 0⟩ ∧
    EvalResult.ok (⟨5, 0⟩ : Decimal) ≠ EvalResult.ok ⟨7, 0⟩ ∧
    dBEq ⟨5, 0⟩ ⟨7, 0⟩ = false :=
  ⟨⟨⟨1, 0⟩, ⟨2, 0⟩, ⟨1, 0⟩, ⟨2, 0⟩, [], by decide, rfl, rfl, rfl⟩,
   rfl, by decide, rfl⟩

/-- Claim C3 (amended): for every token sequence containing the 13-token
pattern `( Number a ^ Number e ) + Number b - ( Number a2 ^ Number e2 )`
with `a == a2`, `e == e2` and `e` of zero fractional part at some position,
`evaluate` short-circuits and directly returns the middle literal of the
**leftmost** such occurrence (an occurrence no later than the given one) —
amended from "returns b" for an occurrence at *any* position, which
`claim_C3_counterexample` refutes when two occurrences with different
middle literals overlap. -/
theorem claim_C3_cancellation_shortcut : ∀ ts i b, cancelPatternAt ts i b →
    ∃ k bk, k ≤ i ∧ cancelPatternAt ts k bk ∧ evaluate ts = .ok bk := by
  intro ts i b hp
  have hb := cancelPatternAt_bounds ts i b hp
  obtain ⟨k, bk, hk0, hk2, hk3, hk4⟩ :=
    scanAux_finds ts.length ts 0 i b hp (by omega) (by omega)
  refine ⟨k, bk, hk2, hk3, ?_⟩
  unfold evaluate
  have hne : ts.isEmpty = false := by
    cases ts with
    | nil => simp at hb
    | cons x xs => rfl
  rw [hne]
  rw [if_neg (by simp)]
  rw [if_pos (show 7 ≤ ts.length by omega)]
  unfold scanCancel
  rw [hk4]

/-- Witness for C3: the 13-token sequence `( 1 ^ 2 ) + 5 - ( 1 ^ 2 )`
contains the pattern at position 0 and evaluates to the short-circuited 5.
-/
theorem claim_C3_witness :
    ∃ k bk, k ≤ 0 ∧
      cancelPatternAt
        [Token.LeftParen, .Number ⟨1, 0⟩, .Exponentiation, .Number ⟨2, 0⟩,
         .RightParen, .Plus, .Number ⟨5, 0⟩, .Minus, .LeftParen, .Number ⟨1, 0⟩,
         .Exponentiation, .Number ⟨2, 0⟩, .RightParen] k bk ∧
      evaluate
        [Token.LeftParen, .Number ⟨1, 0⟩, .Exponentiation, .Number ⟨2, 0⟩,
         .RightParen, .Plus, .Number ⟨5, 0⟩, .Minus, .LeftParen, .Number ⟨1, 0⟩,
         .Exponentiation, .Number ⟨2, 0⟩, .RightParen] = .ok bk :=
  claim_C3_cancellation_shortcut _ 0 ⟨5, 0⟩
    ⟨⟨1, 0⟩, ⟨2, 0⟩, ⟨1, 0⟩, ⟨2, 0⟩, [], by decide, rfl, rfl, rfl⟩

end Fermat
